import Mathlib

/-!
Verification of the PXMarkMap backend sync core against its specification.

The Go sources are shallowly embedded as pure Lean functions:
  * `pkg/database/postgres.go` : date parsing, the store/shipment upsert
    transaction (`SaveStores`), the recent-shipments read projection
    (`GetRecentShipments`) and the existing-location query
    (`GetExistingStoresWithLocation`).
  * `pkg/sync/sync.go`         : the full-mode (`SyncData`) and incremental
    (`SyncDataDaily`) reconcilers and `enrichMissingPlaceData`.
  * the `google` package       : `EnrichStoresWithPlaceData` (the geocode
    enricher) and its per-worker body; its bounded-concurrency skeleton is
    additionally modelled as a labelled transition system.

Database effects are modelled by explicit state passing over a `DB` record;
fallible external calls (sheet fetch, index query, geocode lookup, row
writes) are injected as `Except`/`Option`-valued oracles.  `float64`
coordinate payloads are modelled as `Int`: the sync core only ever copies
them, never computes with them.
-/

namespace PXMark

/-- A calendar date, the payload of Go's `time.Time` as used by this code
(only year/month/day are ever consulted). -/
structure Date where
  year : Nat
  month : Nat
  day : Nat
deriving DecidableEq, Repr

/-- Leap-year test, as in Go's `time` package. -/
def isLeapYear (y : Nat) : Bool :=
  y % 4 == 0 && (y % 100 != 0 || y % 400 == 0)

/-- Number of days in a month, used by Go's `time.Parse` range validation. -/
def daysInMonth (y m : Nat) : Nat :=
  if m = 2 then (if isLeapYear y then 29 else 28)
  else if m = 4 ∨ m = 6 ∨ m = 9 ∨ m = 11 then 30
  else 31

/-- The digit value of a character, if it is an ASCII digit. -/
def digitVal (c : Char) : Option Nat :=
  if c.isDigit then some (c.toNat - 48) else none

/-- Read exactly two digits (Go layout element `01` / `02`: fixed width). -/
def readFixed2 : List Char → Option (Nat × List Char)
  | a :: b :: rest =>
    match digitVal a, digitVal b with
    | some x, some y => some (10 * x + y, rest)
    | _, _ => none
  | _ => none

/-- Read one or two digits (Go layout element `1` / `2`: variable width). -/
def readNum1or2 : List Char → Option (Nat × List Char)
  | [] => none
  | [a] => (digitVal a).map (fun x => (x, []))
  | a :: b :: rest =>
    match digitVal a with
    | none => none
    | some x =>
      match digitVal b with
      | some y => some (10 * x + y, rest)
      | none => some (x, b :: rest)

/-- Read exactly four digits (Go layout element `2006`). -/
def readYear4 : List Char → Option (Nat × List Char)
  | a :: b :: c :: d :: rest =>
    match digitVal a, digitVal b, digitVal c, digitVal d with
    | some w, some x, some y, some z => some (1000 * w + 100 * x + 10 * y + z, rest)
    | _, _, _, _ => none
  | _ => none

/-- Consume one expected separator character. -/
def readSep (sep : Char) : List Char → Option (List Char)
  | c :: rest => if c = sep then some rest else none
  | [] => none

/-- Field order of one of the accepted Go date layouts. -/
inductive FieldOrder where
  | ymd
  | mdy
deriving DecidableEq, Repr

/-- One Go date layout: field order, separator and whether the month/day
fields are fixed two-digit (`01`/`02`) or variable width (`1`/`2`). -/
structure DateLayout where
  order : FieldOrder
  sep : Char
  fixedWidth : Bool
deriving DecidableEq, Repr

/-- The ordered layout list of `parseShipmentDate` in `postgres.go`:
`2006/01/02`, `2006-01-02`, `01/02/2006`, `2006/1/2`, `1/2/2006`. -/
def shipmentDateFormats : List DateLayout :=
  [⟨.ymd, '/', true⟩, ⟨.ymd, '-', true⟩, ⟨.mdy, '/', true⟩,
   ⟨.ymd, '/', false⟩, ⟨.mdy, '/', false⟩]

/-- Month/day field reader selected by the layout's width flag. -/
def readMonthDay (fixedWidth : Bool) : List Char → Option (Nat × List Char) :=
  if fixedWidth then readFixed2 else readNum1or2

/-- Range validation performed by Go's `time.Parse` (month 1..12, day within
the month, arbitrary four-digit year). -/
def validDate (y m d : Nat) : Bool :=
  1 ≤ m && m ≤ 12 && 1 ≤ d && d ≤ daysInMonth y m

/-- Parse a string against one layout, mirroring Go's `time.Parse` on the
numeric layouts used here: exact separators, fixed/variable digit fields,
no leftover input, month/day range checks. -/
def parseWithLayout (l : DateLayout) (s : String) : Option Date :=
  let cs := s.data
  match l.order with
  | .ymd =>
    match readYear4 cs with
    | none => none
    | some (y, r1) =>
      match readSep l.sep r1 with
      | none => none
      | some r2 =>
        match readMonthDay l.fixedWidth r2 with
        | none => none
        | some (m, r3) =>
          match readSep l.sep r3 with
          | none => none
          | some r4 =>
            match readMonthDay l.fixedWidth r4 with
            | none => none
            | some (d, r5) =>
              if r5 = [] ∧ validDate y m d then some ⟨y, m, d⟩ else none
  | .mdy =>
    match readMonthDay l.fixedWidth cs with
    | none => none
    | some (m, r1) =>
      match readSep l.sep r1 with
      | none => none
      | some r2 =>
        match readMonthDay l.fixedWidth r2 with
        | none => none
        | some (d, r3) =>
          match readSep l.sep r3 with
          | none => none
          | some r4 =>
            match readYear4 r4 with
            | none => none
            | some (y, r5) =>
              if r5 = [] ∧ validDate y m d then some ⟨y, m, d⟩ else none

/-- Try layouts in order, first success wins (the `for _, format` loop). -/
def tryLayouts : List DateLayout → String → Option Date
  | [], _ => none
  | l :: ls, s =>
    match parseWithLayout l s with
    | some d => some d
    | none => tryLayouts ls s

/-- `parseShipmentDate` (postgres.go): try the five layouts in order;
`none` models the `無法解析日期` error return. -/
def parseShipmentDate (s : String) : Option Date :=
  tryLayouts shipmentDateFormats s

/-- `database.ShipmentInfo` (postgres.go): one raw shipment observation. -/
structure ShipmentInfo where
  date : String
  qty : String
deriving DecidableEq, Repr

/-- `database.StoreInfo` (postgres.go): the input record of `SaveStores`.
Coordinates are the `float64` payloads, modelled as `Int`. -/
structure StoreInfo where
  storeName : String
  placeID : String
  formattedAddress : String
  latitude : Int
  longitude : Int
  okraShipments : List ShipmentInfo
  gourdShipments : List ShipmentInfo
deriving DecidableEq, Repr

/-- A row of the `stores` table.  `latitude`/`longitude` are nullable
(`DECIMAL` columns); `updated_at`/`created_at` are not modelled. -/
structure StoreRow where
  id : Nat
  storeName : String
  placeID : String
  formattedAddress : String
  latitude : Option Int
  longitude : Option Int
deriving DecidableEq, Repr

/-- A row of the `shipments` table (its serial `id` is never consulted by
the code under verification and is not modelled). -/
structure ShipmentRow where
  storeID : Nat
  productType : String
  date : Date
  quantity : String
deriving DecidableEq, Repr

/-- The natural key of a shipment row: the `UNIQUE(store_id, product_type,
shipment_date)` constraint. -/
def ShipmentRow.key (r : ShipmentRow) : Nat × String × Date :=
  (r.storeID, r.productType, r.date)

/-- The persisted database state: the two tables plus the next serial id
the `stores` sequence would assign. -/
structure DB where
  stores : List StoreRow
  shipments : List ShipmentRow
  nextID : Nat
deriving DecidableEq, Repr

/-- The rows of the shipments table carrying a given natural key. -/
def keyFilter (k : Nat × String × Date) (rows : List ShipmentRow) : List ShipmentRow :=
  rows.filter (fun x => decide (x.key = k))

/-- The `UNIQUE(store_id, product_type, shipment_date)` table invariant. -/
def UniqueKeys (rows : List ShipmentRow) : Prop :=
  ∀ k, (keyFilter k rows).length ≤ 1

instance : DecidablePred UniqueKeys := fun rows =>
  decidable_of_iff (∀ k ∈ rows.map ShipmentRow.key, (keyFilter k rows).length ≤ 1) <| by
    constructor
    · intro h k
      by_cases hk : k ∈ rows.map ShipmentRow.key
      · exact h k hk
      · have : keyFilter k rows = [] := by
          simp only [keyFilter, List.filter_eq_nil_iff]
          intro a ha hkey
          exact hk (List.mem_map.2 ⟨a, ha, by simpa using hkey⟩)
        simp [this]
    · intro h k _
      exact h k

/-- The `INSERT ... ON CONFLICT (store_id, product_type, shipment_date)
DO UPDATE SET quantity = EXCLUDED.quantity` statement of `saveShipment`:
update the conflicting row's quantity, otherwise insert.  (Under the
table's unique-key invariant at most one row can conflict.) -/
def upsertShipment (r : ShipmentRow) : List ShipmentRow → List ShipmentRow
  | [] => [r]
  | x :: xs =>
    if x.key = r.key then { x with quantity := r.quantity } :: xs
    else x :: upsertShipment r xs

/-- `saveShipment` (postgres.go): parse the date (error return on failure,
which the caller merely logs), then run the shipment upsert; `failShip`
injects row-level database errors of the `tx.Exec` call. -/
def saveShipment (failShip : Nat → String → Date → String → Option String)
    (rows : List ShipmentRow) (storeID : Nat) (productType : String)
    (sh : ShipmentInfo) : Except String (List ShipmentRow) :=
  match parseShipmentDate sh.date with
  | none => .error ("無法解析日期: " ++ sh.date)
  | some d =>
    match failShip storeID productType d sh.qty with
    | some e => .error e
    | none => .ok (upsertShipment ⟨storeID, productType, d, sh.qty⟩ rows)

/-- The per-category shipment loop of `SaveStores`: each `saveShipment`
error (parse failure or row-level database error) is logged and the loop
continues with the previous table state. -/
def saveShipmentsLoop (failShip : Nat → String → Date → String → Option String)
    (storeID : Nat) (productType : String) :
    List ShipmentInfo → List ShipmentRow → List ShipmentRow
  | [], rows => rows
  | sh :: rest, rows =>
    saveShipmentsLoop failShip storeID productType rest
      (match saveShipment failShip rows storeID productType sh with
       | .error _ => rows
       | .ok r => r)

/-- The `INSERT INTO stores ... ON CONFLICT (store_name) DO UPDATE ...
RETURNING id` statement of `SaveStores`: update the geocode fields of the
row with that name, or insert a fresh row; returns the row id. -/
def upsertStore (db : DB) (s : StoreInfo) : DB × Nat :=
  match db.stores.find? (fun r => decide (r.storeName = s.storeName)) with
  | some r =>
    ({ db with
        stores := db.stores.map (fun x =>
          if x.storeName = s.storeName then
            { x with placeID := s.placeID, formattedAddress := s.formattedAddress,
                     latitude := some s.latitude, longitude := some s.longitude }
          else x) }, r.id)
  | none =>
    ({ db with
        stores := db.stores ++
          [⟨db.nextID, s.storeName, s.placeID, s.formattedAddress,
            some s.latitude, some s.longitude⟩],
        nextID := db.nextID + 1 }, db.nextID)

/-- The per-store body of `SaveStores`: a store-row error aborts the whole
transaction (the `return fmt.Errorf(儲存店家...)` path); shipment errors
are logged and skipped.  `failStore` injects row-level database errors of
the store upsert. -/
def saveStoresLoop (failStore : String → Option String)
    (failShip : Nat → String → Date → String → Option String) :
    List StoreInfo → DB → Except String DB
  | [], db => .ok db
  | s :: rest, db =>
    match failStore s.storeName with
    | some e => .error ("儲存店家 " ++ s.storeName ++ " 失敗: " ++ e)
    | none =>
      let p := upsertStore db s
      let rows1 := saveShipmentsLoop failShip p.2 "秋葵" s.okraShipments p.1.shipments
      let rows2 := saveShipmentsLoop failShip p.2 "產銷絲瓜" s.gourdShipments rows1
      saveStoresLoop failStore failShip rest { p.1 with shipments := rows2 }

/-- `SaveStores` (postgres.go): the whole batch runs inside one
transaction (`Begin` / `defer Rollback` / `Commit`): an `.error` result
means the transaction was rolled back and no state change escapes, an
`.ok` result is the committed state. -/
def SaveStores (failStore : String → Option String)
    (failShip : Nat → String → Date → String → Option String)
    (db : DB) (stores : List StoreInfo) : Except String DB :=
  saveStoresLoop failStore failShip stores db

/-- The no-failure store oracle (every store row write succeeds). -/
def noStoreFail : String → Option String := fun _ => none

/-- The no-failure shipment oracle (every shipment row write succeeds). -/
def noShipFail : Nat → String → Date → String → Option String :=
  fun _ _ _ _ => none

/-- `database.ExistingStoreInfo` (postgres.go). -/
structure ExistingStoreInfo where
  placeID : String
  formattedAddress : String
  latitude : Int
  longitude : Int
deriving DecidableEq, Repr

/-- `GetExistingStoresWithLocation` (postgres.go): the rows of `stores`
with a non-empty place id and non-null coordinates, keyed by name. -/
def GetExistingStoresWithLocation (db : DB) : List (String × ExistingStoreInfo) :=
  db.stores.filterMap (fun r =>
    match r.latitude, r.longitude with
    | some lat, some lng =>
      if r.placeID ≠ "" then
        some (r.storeName, ⟨r.placeID, r.formattedAddress, lat, lng⟩)
      else none
    | _, _ => none)

/-- Day number of a calendar date (days since 0000-03-01, the standard
civil-from-days computation), modelling SQL date comparison. -/
def Date.toDayNumber (dt : Date) : Nat :=
  let y := if dt.month ≤ 2 then dt.year - 1 else dt.year
  let era := y / 400
  let yoe := y % 400
  let mp := if 2 < dt.month then dt.month - 3 else dt.month + 9
  let doy := (153 * mp + 2) / 5 + dt.day - 1
  era * 146097 + (yoe * 365 + yoe / 4 - yoe / 100 + doy)

/-- Left-pad a numeral with zeros to the given width. -/
def padNum (width n : Nat) : String :=
  let s := toString n
  String.mk (List.replicate (width - s.length) '0') ++ s

/-- Go's `Format("2006-01-02")` on the shipment date. -/
def formatDate (d : Date) : String :=
  padNum 4 d.year ++ "-" ++ padNum 2 d.month ++ "-" ++ padNum 2 d.day

/-- One element of the `[]map[string]interface` result of
`GetRecentShipments`, given an explicit record shape. -/
structure RecentRow where
  storeName : String
  address : String
  latitude : Int
  longitude : Int
  productType : String
  shipmentDate : String
  quantity : String
deriving DecidableEq, Repr

/-- The `JOIN shipments sh ON s.id = sh.store_id` rows together with the
`WHERE` clause of `GetRecentShipments` (recency window and the SQL-side
quantity conditions). -/
def recentJoinRows (db : DB) (currentDate : Date) (days : Nat) :
    List (StoreRow × ShipmentRow) :=
  db.stores.flatMap (fun st =>
    db.shipments.filterMap (fun sh =>
      if sh.storeID = st.id ∧
         (currentDate.toDayNumber : Int) - (days : Int) ≤ (sh.date.toDayNumber : Int) ∧
         sh.quantity ≠ "" ∧ sh.quantity ≠ "0" then
        some (st, sh)
      else none))

/-- The `ORDER BY s.store_name, sh.product_type, sh.shipment_date DESC`
comparator. -/
def recentRowLE (a b : StoreRow × ShipmentRow) : Bool :=
  match compare a.1.storeName b.1.storeName with
  | .lt => true
  | .gt => false
  | .eq =>
    match compare a.2.productType b.2.productType with
    | .lt => true
    | .gt => false
    | .eq => b.2.date.toDayNumber ≤ a.2.date.toDayNumber

/-- Insert into a sorted list (insertion sort step). -/
def insertSorted (a : StoreRow × ShipmentRow) :
    List (StoreRow × ShipmentRow) → List (StoreRow × ShipmentRow)
  | [] => [a]
  | b :: rest => if recentRowLE a b then a :: b :: rest else b :: insertSorted a rest

/-- Sort the joined rows by the query's `ORDER BY`. -/
def sortRecentRows : List (StoreRow × ShipmentRow) → List (StoreRow × ShipmentRow)
  | [] => []
  | a :: rest => insertSorted a (sortRecentRows rest)

/-- `GetRecentShipments` (postgres.go): the SQL query (join, recency
window, quantity conditions, ordering) followed by the row-scan loop,
which defaults null coordinates to zero and re-checks that the quantity
is neither empty nor the literal `"0"` before emitting a result row. -/
def GetRecentShipments (db : DB) (currentDate : Date) (days : Nat) : List RecentRow :=
  (sortRecentRows (recentJoinRows db currentDate days)).filterMap (fun p =>
    let latitude := p.1.latitude.getD 0
    let longitude := p.1.longitude.getD 0
    if p.2.quantity = "" ∨ p.2.quantity = "0" then none
    else some ⟨p.1.storeName, p.1.formattedAddress, latitude, longitude,
               p.2.productType, formatDate p.2.date, p.2.quantity⟩)

/-! ### The `google` package: sheet data model and geocode enrichment

`StoreData`, `Shipment`, `LoadSheetByGID` and `LoadAndOrganizeSheets` are
declared in the google-package file concatenated into
`src/pkg/scheduler/cron.go` (its second part). -/

/-- `google.Shipment` (cron.go, google package part): one raw shipment
record (`Date`, `Qty`). -/
structure Shipment where
  date : String
  qty : String
deriving DecidableEq, Repr

/-- `google.StoreData` (cron.go, google package part). -/
structure StoreData where
  storeName : String
  placeID : String
  formattedAddress : String
  latitude : Int
  longitude : Int
  okraShipments : List Shipment
  spongeGourdShipments : List Shipment
deriving DecidableEq, Repr

/-- One candidate of the Places text-search response. -/
structure PlaceCandidate where
  id : String
  formattedAddress : String
  latitude : Int
  longitude : Int
deriving DecidableEq, Repr

/-- `google.PlaceSearchResponse`: the candidate list. -/
structure PlaceSearchResponse where
  places : List PlaceCandidate
deriving DecidableEq, Repr

/-- The body of one enrichment goroutine in `EnrichStoresWithPlaceData`:
build the query `"全聯 " ++ name`, call the lookup (injected as the oracle
`g`, standing for `SearchPlaceByName`); on error, log and leave the store
untouched; otherwise copy the first candidate's fields onto the store. -/
def enrichWorker (g : String → Except String PlaceSearchResponse)
    (name : String) (d : StoreData) : StoreData :=
  match g ("全聯 " ++ name) with
  | .error _ => d
  | .ok res =>
    match res.places with
    | [] => d
    | place :: _ =>
      { d with placeID := place.id, formattedAddress := place.formattedAddress,
               latitude := place.latitude, longitude := place.longitude }

/-- `google.EnrichStoresWithPlaceData`: one worker per map entry (each
worker mutates only its own `*StoreData`, so the concurrent run is
equivalent to the per-entry map below), then `wg.Wait()` and `return nil`
— the second component is the function's error result, which is always
`none`. -/
def EnrichStoresWithPlaceData (g : String → Except String PlaceSearchResponse)
    (storeMap : List (String × StoreData)) :
    List (String × StoreData) × Option String :=
  (storeMap.map (fun p => (p.1, enrichWorker g p.1 p.2)), none)

/-! ### The `sync` package: full and incremental reconciliation -/

/-- Lookup by store name in the Existing-Location Index
(`existingStores[storeName]` on the Go map). -/
def lookupStore : List (String × ExistingStoreInfo) → String → Option ExistingStoreInfo
  | [], _ => none
  | (m, e) :: rest, n => if m = n then some e else lookupStore rest n

/-- The `needPlaceAPI` sub-map built by `enrichMissingPlaceData`: the
entries whose name is absent from the Existing-Location Index. -/
def needPlaceAPI (existing : List (String × ExistingStoreInfo))
    (storeMap : List (String × StoreData)) : List (String × StoreData) :=
  storeMap.filter (fun p => (lookupStore existing p.1).isNone)

/-- The four-field copy of `enrichMissingPlaceData`'s found-branch:
`storeData.PlaceID = existingStore.PlaceID` and the three other fields. -/
def copyExisting (e : ExistingStoreInfo) (d : StoreData) : StoreData :=
  { d with placeID := e.placeID, formattedAddress := e.formattedAddress,
           latitude := e.latitude, longitude := e.longitude }

/-- Observable outcome of `enrichMissingPlaceData`: the final store map
(the in-place mutations of the Go code made explicit), whether the
Geocode Enricher was invoked, and the names of the sub-map passed to it. -/
structure EnrichOutcome where
  merged : List (String × StoreData)
  enricherCalled : Bool
  routedNames : List String
deriving DecidableEq, Repr

/-- `enrichMissingPlaceData` (sync.go): fetch the Existing-Location Index
(`existingRes`; its `.error` propagates), copy the four stored geocode
fields onto every store found in the index, collect the rest into
`needPlaceAPI`, and call the Geocode Enricher on that sub-map only when it
is non-empty.  Because `needPlaceAPI` holds the same pointers as
`storeMap`, the enricher's in-place writes are modelled by applying
`enrichWorker` to exactly the index-absent entries of the full map. -/
def enrichMissingPlaceData (g : String → Except String PlaceSearchResponse)
    (existingRes : Except String (List (String × ExistingStoreInfo)))
    (storeMap : List (String × StoreData)) : Except String EnrichOutcome :=
  match existingRes with
  | .error e => .error e
  | .ok existing =>
    let need := needPlaceAPI existing storeMap
    if 0 < need.length then
      match EnrichStoresWithPlaceData g need with
      | (_, some e) => .error e
      | (_, none) =>
        .ok ⟨storeMap.map (fun p =>
               match lookupStore existing p.1 with
               | some e => (p.1, copyExisting e p.2)
               | none => (p.1, enrichWorker g p.1 p.2)),
             true, need.map (fun p => p.1)⟩
    else
      .ok ⟨storeMap.map (fun p =>
             match lookupStore existing p.1 with
             | some e => (p.1, copyExisting e p.2)
             | none => p),
           false, []⟩

/-- `convertToStoreInfo` (sync.go): field-by-field conversion from
`google.StoreData` to `database.StoreInfo`. -/
def convertToStoreInfo (storeMap : List (String × StoreData)) : List StoreInfo :=
  storeMap.map (fun p =>
    { storeName := p.2.storeName
      placeID := p.2.placeID
      formattedAddress := p.2.formattedAddress
      latitude := p.2.latitude
      longitude := p.2.longitude
      okraShipments := p.2.okraShipments.map (fun s => ⟨s.date, s.qty⟩)
      gourdShipments := p.2.spongeGourdShipments.map (fun s => ⟨s.date, s.qty⟩) })

/-- Observable outcome of a full-mode sync: the stores handed to
`SaveStores` and whether the `[WARN]` branch for an enricher error ran. -/
structure FullSyncResult where
  stores : List StoreInfo
  enrichWarn : Bool
deriving DecidableEq, Repr

/-- `SyncData` (sync.go, full/monthly mode): read sheets (`sheetsRes`),
enrich every store, log a warning if the enricher returned an error,
convert and save.  The sheet-read error and the `SaveStores` error are
the only aborting paths. -/
def SyncData (g : String → Except String PlaceSearchResponse)
    (failStore : String → Option String)
    (failShip : Nat → String → Date → String → Option String)
    (sheetsRes : Except String (List (String × StoreData)))
    (db : DB) : Except String (DB × FullSyncResult) :=
  match sheetsRes with
  | .error e => .error e
  | .ok storeMap =>
    let p := EnrichStoresWithPlaceData g storeMap
    let warn := p.2.isSome
    let stores := convertToStoreInfo p.1
    match SaveStores failStore failShip db stores with
    | .error e => .error e
    | .ok db' => .ok (db', ⟨stores, warn⟩)

/-- Observable outcome of a daily (incremental) sync. -/
structure DailySyncResult where
  stores : List StoreInfo
  enrichWarn : Bool
  routedNames : List String
deriving DecidableEq, Repr

/-- `SyncDataDaily` (sync.go, incremental mode): read sheets, run
`enrichMissingPlaceData`; if it fails, log a warning and continue with the
store map as read (the failure happens before any mutation); convert and
save.  The sheet-read error and the `SaveStores` error are the only
aborting paths. -/
def SyncDataDaily (g : String → Except String PlaceSearchResponse)
    (failStore : String → Option String)
    (failShip : Nat → String → Date → String → Option String)
    (sheetsRes : Except String (List (String × StoreData)))
    (existingRes : Except String (List (String × ExistingStoreInfo)))
    (db : DB) : Except String (DB × DailySyncResult) :=
  match sheetsRes with
  | .error e => .error e
  | .ok storeMap =>
    let r :=
      match enrichMissingPlaceData g existingRes storeMap with
      | .error _ => (storeMap, true, ([] : List String))
      | .ok o => (o.merged, false, o.routedNames)
    let stores := convertToStoreInfo r.1
    match SaveStores failStore failShip db stores with
    | .error e => .error e
    | .ok db' => .ok (db', ⟨stores, r.2.1, r.2.2⟩)

/-! ### Concurrency skeleton of `EnrichStoresWithPlaceData`

The goroutine/semaphore/waitgroup structure of the enricher is modelled as
a labelled transition system over worker counts.  One worker is spawned
per entry; a worker must send on the capacity-10 channel (`sem <-`) before
its lookup — possible only while fewer than `cap` workers hold a slot —
performs the lookup and the rate-limit sleep while holding the slot, then
releases (`<-sem`) and signals the waitgroup; the caller returns only
after `wg.Wait()` observes every worker done. -/

/-- Counts of enrichment workers in each phase, plus whether the
enclosing call has returned past `wg.Wait()`. -/
structure EnrichPoolState where
  pending : Nat
  active : Nat
  done : Nat
  returned : Bool
deriving DecidableEq, Repr

/-- The transitions of the worker pool with semaphore capacity `cap`. -/
inductive EnrichPoolStep (cap : Nat) : EnrichPoolState → EnrichPoolState → Prop
  | acquire (s : EnrichPoolState) (hp : 0 < s.pending) (ha : s.active < cap) :
      EnrichPoolStep cap s ⟨s.pending - 1, s.active + 1, s.done, s.returned⟩
  | release (s : EnrichPoolState) (ha : 0 < s.active) :
      EnrichPoolStep cap s ⟨s.pending, s.active - 1, s.done + 1, s.returned⟩
  | ret (s : EnrichPoolState) (hp : s.pending = 0) (ha : s.active = 0) :
      EnrichPoolStep cap s ⟨0, 0, s.done, true⟩

/-- Initial state of an enrichment call over `n` map entries: all workers
spawned but none holding a semaphore slot. -/
def enrichInit (n : Nat) : EnrichPoolState := ⟨n, 0, 0, false⟩

/-- States reachable during one `EnrichStoresWithPlaceData` call over `n`
entries with semaphore capacity `cap`. -/
inductive EnrichReachable (cap n : Nat) : EnrichPoolState → Prop
  | init : EnrichReachable cap n (enrichInit n)
  | step {s t : EnrichPoolState} :
      EnrichReachable cap n s → EnrichPoolStep cap s t → EnrichReachable cap n t

/-! ### Spreadsheet Reader (`LoadAndOrganizeSheets`, cron.go google part)

The CSV download itself (`http.Get` + `csv.ReadAll` inside
`LoadSheetByGID`) is the injected oracle `httpCsv`; the in-code cell
trimming, the configuration checks, the per-sheet loop, the `< 2` rows
skip and the cross-table accumulation are embedded below. -/

/-- Go's `strings.TrimSpace`: drop leading and trailing whitespace
(structurally recursive, over the character list). -/
def trimString (s : String) : String :=
  String.mk (((s.data.dropWhile Char.isWhitespace).reverse.dropWhile
    Char.isWhitespace).reverse)

/-- The three environment variables `LoadAndOrganizeSheets` reads
(`GOOGLE_SHEET_ID`, `GOOGLE_SHEET_GIDS`, `GOOGLE_SHEET_NAMES`), passed
explicitly. -/
structure SheetEnv where
  sheetID : String
  gidsEnv : String
  namesEnv : String
deriving DecidableEq, Repr

/-- `google.LoadSheetByGID` (cron.go): download one CSV (the oracle
`httpCsv`, covering `http.Get` and `csv.ReadAll`) and trim the whitespace
of every cell. -/
def LoadSheetByGID (httpCsv : String → String → Except String (List (List String)))
    (sheetID gid : String) : Except String (List (List String)) :=
  match httpCsv sheetID gid with
  | .error e => .error e
  | .ok records => .ok (records.map (fun row => row.map (fun c => trimString c)))

/-- Lookup by store name in the accumulating sheet store map
(`storeMap[storeName]` on the Go map). -/
def lookupStoreData : List (String × StoreData) → String → Option StoreData
  | [], _ => none
  | (m, d) :: rest, n => if m = n then some d else lookupStoreData rest n

/-- Mutation of one entry of the accumulating store map. -/
def updateStoreData (m : List (String × StoreData)) (name : String)
    (f : StoreData → StoreData) : List (String × StoreData) :=
  m.map (fun p => if p.1 = name then (p.1, f p.2) else p)

/-- The Go zero value `&StoreData{StoreName: storeName}`. -/
def newStoreData (name : String) : StoreData :=
  { storeName := name, placeID := "", formattedAddress := "", latitude := 0,
    longitude := 0, okraShipments := [], spongeGourdShipments := [] }

/-- The inner row loop of `LoadAndOrganizeSheets`: create the store entry
on first sight, then for `k` from 1 while both `row[k]` and `header[k]`
exist (the `zip` of the tails) append `Shipment{header[k], row[k]}` to
the okra list when the sheet is `秋葵`, to the sponge-gourd list when it
is `產銷絲瓜`, and nowhere otherwise.  (Go's csv reader never yields a
zero-field record — blank lines are dropped — so the `[]` row case is
unreachable and maps to a skip.) -/
def processRow (sheetName : String) (header : List String)
    (m : List (String × StoreData)) (row : List String) : List (String × StoreData) :=
  match row with
  | [] => m
  | storeName :: cells =>
    let m1 := if (lookupStoreData m storeName).isSome then m
              else m ++ [(storeName, newStoreData storeName)]
    let shipments := ((header.drop 1).zip cells).map
      (fun pc => (⟨pc.1, pc.2⟩ : Shipment))
    if sheetName = "秋葵" then
      updateStoreData m1 storeName
        (fun d => { d with okraShipments := d.okraShipments ++ shipments })
    else if sheetName = "產銷絲瓜" then
      updateStoreData m1 storeName
        (fun d => { d with spongeGourdShipments := d.spongeGourdShipments ++ shipments })
    else m1

/-- One sheet's contribution: `if len(records) < 2 { continue }` (a sheet
with fewer than two rows is silently skipped), else the first row is the
header and every later row goes through the row loop. -/
def processSheet (sheetName : String) (m : List (String × StoreData))
    (records : List (List String)) : List (String × StoreData) :=
  match records with
  | header :: row1 :: body => (row1 :: body).foldl (processRow sheetName header) m
  | _ => m

/-- The `for i, gid := range gids` loop of `LoadAndOrganizeSheets`: trim
the gid and the sheet name, fetch via `LoadSheetByGID`; a fetch failure
is logged and that sheet skipped (`continue`), otherwise the sheet is
folded into the shared store map. -/
def loadSheetsLoop (httpCsv : String → String → Except String (List (List String)))
    (sheetID : String) :
    List (String × String) → List (String × StoreData) → List (String × StoreData)
  | [], m => m
  | (gid, name) :: rest, m =>
    match LoadSheetByGID httpCsv sheetID (trimString gid) with
    | .error _ => loadSheetsLoop httpCsv sheetID rest m
    | .ok records => loadSheetsLoop httpCsv sheetID rest (processSheet (trimString name) m records)

/-- `google.LoadAndOrganizeSheets` (cron.go): error when any of the three
environment values is unset (empty) or when the comma-split gid and name
lists differ in length; otherwise fold every (gid, name) pair into the
store map. -/
def LoadAndOrganizeSheets (httpCsv : String → String → Except String (List (List String)))
    (env : SheetEnv) : Except String (List (String × StoreData)) :=
  if env.sheetID = "" ∨ env.gidsEnv = "" ∨ env.namesEnv = "" then
    .error "GOOGLE_SHEET_ID or GOOGLE_SHEET_GIDS or GOOGLE_SHEET_NAMES not set"
  else
    let gids := env.gidsEnv.splitOn ","
    let names := env.namesEnv.splitOn ","
    if gids.length ≠ names.length then
      .error "GIDs count and Names count do not match"
    else
      .ok (loadSheetsLoop httpCsv env.sheetID (gids.zip names) [])

/-- The id under which a store name is persisted (the `RETURNING id` /
`find by name` view of the `stores` table). -/
def storeIdOf (db : DB) (name : String) : Option Nat :=
  (db.stores.find? (fun r => decide (r.storeName = name))).map (fun r => r.id)

/-- The natural key a raw shipment record would be persisted under for a
given store id and product type, when its date parses. -/
def shipKeyOf (storeID : Nat) (productType : String) (sh : ShipmentInfo) :
    Option (Nat × String × Date) :=
  (parseShipmentDate sh.date).map (fun d => (storeID, productType, d))

/-! ## Helper lemmas -/

theorem keyFilter_cons (k : Nat × String × Date) (x : ShipmentRow) (xs : List ShipmentRow) :
    keyFilter k (x :: xs) =
      if x.key = k then x :: keyFilter k xs else keyFilter k xs := by
  simp only [keyFilter, List.filter_cons]
  by_cases h : x.key = k <;> simp [h]

theorem upsert_quantity_key (x : ShipmentRow) (q : String) :
    ShipmentRow.key { x with quantity := q } = x.key := rfl

theorem keyFilter_upsert_ne (r : ShipmentRow) (rows : List ShipmentRow)
    (k : Nat × String × Date) (hk : k ≠ r.key) :
    keyFilter k (upsertShipment r rows) = keyFilter k rows := by
  induction rows with
  | nil =>
    show keyFilter k [r] = keyFilter k []
    rw [keyFilter_cons, if_neg (fun h => hk h.symm)]
  | cons x xs ih =>
    by_cases hx : x.key = r.key
    · have hxk : ¬ x.key = k := fun h => hk (h ▸ hx)
      simp only [upsertShipment, if_pos hx]
      rw [keyFilter_cons, keyFilter_cons, upsert_quantity_key, if_neg hxk, if_neg hxk]
    · simp only [upsertShipment, if_neg hx]
      rw [keyFilter_cons, keyFilter_cons, ih]

theorem shipmentRow_eq_of_key (x r : ShipmentRow) (hx : x.key = r.key) :
    ({ x with quantity := r.quantity } : ShipmentRow) =
      ⟨r.storeID, r.productType, r.date, r.quantity⟩ := by
  have h1 : x.storeID = r.storeID := congrArg Prod.fst hx
  have h2 : x.productType = r.productType := congrArg (fun p => p.2.1) hx
  have h3 : x.date = r.date := congrArg (fun p => p.2.2) hx
  cases x
  simp_all [ShipmentRow.key]

theorem keyFilter_upsert_self (r : ShipmentRow) (rows : List ShipmentRow)
    (h : (keyFilter r.key rows).length ≤ 1) :
    keyFilter r.key (upsertShipment r rows) =
      [⟨r.storeID, r.productType, r.date, r.quantity⟩] := by
  induction rows with
  | nil =>
    show keyFilter r.key [r] = _
    rw [keyFilter_cons, if_pos rfl]
    rfl
  | cons x xs ih =>
    by_cases hx : x.key = r.key
    · simp only [upsertShipment, if_pos hx]
      rw [keyFilter_cons] at h
      rw [if_pos hx] at h
      have hxs : keyFilter r.key xs = [] := by
        simp only [List.length_cons] at h
        exact List.length_eq_zero.1 (by omega)
      rw [keyFilter_cons, upsert_quantity_key, if_pos hx, hxs,
        shipmentRow_eq_of_key x r hx]
    · simp only [upsertShipment, if_neg hx]
      rw [keyFilter_cons] at h
      rw [if_neg hx] at h
      rw [keyFilter_cons, if_neg hx]
      exact ih h

theorem uniqueKeys_upsert (r : ShipmentRow) (rows : List ShipmentRow)
    (h : UniqueKeys rows) : UniqueKeys (upsertShipment r rows) := by
  intro k
  by_cases hk : k = r.key
  · subst hk
    rw [keyFilter_upsert_self r rows (h r.key)]
    simp
  · rw [keyFilter_upsert_ne r rows k hk]
    exact h k

theorem saveShipmentsLoop_append (fS : Nat → String → Date → String → Option String)
    (storeID : Nat) (productType : String) (as bs : List ShipmentInfo)
    (rows : List ShipmentRow) :
    saveShipmentsLoop fS storeID productType (as ++ bs) rows =
      saveShipmentsLoop fS storeID productType bs
        (saveShipmentsLoop fS storeID productType as rows) := by
  induction as generalizing rows with
  | nil => rfl
  | cons sh rest ih =>
    simp only [List.cons_append, saveShipmentsLoop]
    exact ih _

theorem saveShipmentsLoop_step (fS : Nat → String → Date → String → Option String)
    (storeID : Nat) (productType : String) (sh : ShipmentInfo)
    (rest : List ShipmentInfo) (rows : List ShipmentRow) :
    saveShipmentsLoop fS storeID productType (sh :: rest) rows =
      saveShipmentsLoop fS storeID productType rest
        (match saveShipment fS rows storeID productType sh with
         | .error _ => rows
         | .ok r => r) := rfl

theorem saveShipment_parse_fail (fS : Nat → String → Date → String → Option String)
    (rows : List ShipmentRow) (storeID : Nat) (productType : String)
    (sh : ShipmentInfo) (hp : parseShipmentDate sh.date = none) :
    saveShipment fS rows storeID productType sh = .error ("無法解析日期: " ++ sh.date) := by
  simp [saveShipment, hp]

theorem saveShipmentsLoop_keyFilter_untouched
    (fS : Nat → String → Date → String → Option String)
    (storeID : Nat) (productType : String) (ships : List ShipmentInfo)
    (rows : List ShipmentRow) (k : Nat × String × Date)
    (h : ∀ sh ∈ ships, shipKeyOf storeID productType sh ≠ some k) :
    keyFilter k (saveShipmentsLoop fS storeID productType ships rows) =
      keyFilter k rows := by
  induction ships generalizing rows with
  | nil => rfl
  | cons sh rest ih =>
    rw [saveShipmentsLoop_step]
    have hsh := h sh (List.mem_cons_self sh rest)
    have hrest : ∀ s ∈ rest, shipKeyOf storeID productType s ≠ some k :=
      fun s hs => h s (List.mem_cons_of_mem sh hs)
    cases hp : parseShipmentDate sh.date with
    | none =>
      rw [saveShipment_parse_fail fS rows storeID productType sh hp]
      exact ih rows hrest
    | some d =>
      have hkd : k ≠ (storeID, productType, d) := by
        intro hk
        exact hsh (by simp [shipKeyOf, hp, hk])
      simp only [saveShipment, hp]
      cases hfail : fS storeID productType d sh.qty with
      | some e => exact ih rows hrest
      | none =>
        rw [ih _ hrest]
        exact keyFilter_upsert_ne _ rows k hkd

theorem saveShipmentsLoop_unique (fS : Nat → String → Date → String → Option String)
    (storeID : Nat) (productType : String) (ships : List ShipmentInfo)
    (rows : List ShipmentRow) (h : UniqueKeys rows) :
    UniqueKeys (saveShipmentsLoop fS storeID productType ships rows) := by
  induction ships generalizing rows with
  | nil => exact h
  | cons sh rest ih =>
    rw [saveShipmentsLoop_step]
    cases hp : parseShipmentDate sh.date with
    | none =>
      rw [saveShipment_parse_fail fS rows storeID productType sh hp]
      exact ih rows h
    | some d =>
      simp only [saveShipment, hp]
      cases hfail : fS storeID productType d sh.qty with
      | some e => exact ih rows h
      | none => exact ih _ (uniqueKeys_upsert _ rows h)

theorem saveShipmentsLoop_keyFilter_target
    (fS : Nat → String → Date → String → Option String)
    (hfS : ∀ a b c q, fS a b c q = none)
    (storeID : Nat) (productType : String) (pre post : List ShipmentInfo)
    (sh : ShipmentInfo) (d : Date) (rows : List ShipmentRow)
    (hd : parseShipmentDate sh.date = some d)
    (hpost : ∀ sh' ∈ post, parseShipmentDate sh'.date ≠ some d)
    (hu : UniqueKeys rows) :
    keyFilter (storeID, productType, d)
        (saveShipmentsLoop fS storeID productType (pre ++ sh :: post) rows) =
      [⟨storeID, productType, d, sh.qty⟩] := by
  rw [saveShipmentsLoop_append]
  set rows1 := saveShipmentsLoop fS storeID productType pre rows with hrows1
  have hu1 : UniqueKeys rows1 := saveShipmentsLoop_unique fS storeID productType pre rows hu
  rw [saveShipmentsLoop_step]
  simp only [saveShipment, hd, hfS]
  set r : ShipmentRow := ⟨storeID, productType, d, sh.qty⟩ with hr
  have hkey : r.key = (storeID, productType, d) := rfl
  rw [saveShipmentsLoop_keyFilter_untouched fS storeID productType post _ _
    (fun s hs heq => by
      cases hp : parseShipmentDate s.date with
      | none => simp [shipKeyOf, hp] at heq
      | some d' =>
        simp only [shipKeyOf, hp, Option.map_some', Option.some.injEq] at heq
        have hd' : d' = d := congrArg (fun p => p.2.2) heq
        exact hpost s hs (by rw [hp, hd']))]
  rw [← hkey]
  exact keyFilter_upsert_self r rows1 (hkey ▸ hu1 (storeID, productType, d))

theorem upsertStore_shipments (db : DB) (s : StoreInfo) :
    (upsertStore db s).1.shipments = db.shipments := by
  unfold upsertStore
  cases db.stores.find? (fun r => decide (r.storeName = s.storeName)) <;> rfl

theorem upsertStore_idOf (db : DB) (s : StoreInfo) :
    storeIdOf (upsertStore db s).1 s.storeName = some (upsertStore db s).2 := by
  unfold upsertStore storeIdOf
  cases hf : db.stores.find? (fun r => decide (r.storeName = s.storeName)) with
  | some r =>
    have hr : r.storeName = s.storeName := by
      have := List.find?_some hf
      simpa using this
    simp only
    rw [List.find?_map]
    have hcong :
        (fun x : StoreRow => decide (x.storeName = s.storeName)) ∘
          (fun x : StoreRow =>
            if x.storeName = s.storeName then
              { x with placeID := s.placeID, formattedAddress := s.formattedAddress,
                       latitude := some s.latitude, longitude := some s.longitude }
            else x) =
        fun x : StoreRow => decide (x.storeName = s.storeName) := by
      funext x
      by_cases hx : x.storeName = s.storeName <;> simp [hx]
    rw [hcong, hf]
    simp [hr]
  | none =>
    simp only
    rw [List.find?_append, hf]
    simp

theorem upsertStore_id_found (db : DB) (s : StoreInfo) (sid : Nat)
    (h : storeIdOf db s.storeName = some sid) : (upsertStore db s).2 = sid := by
  unfold upsertStore
  unfold storeIdOf at h
  cases hf : db.stores.find? (fun r => decide (r.storeName = s.storeName)) with
  | some r => simp only; rw [hf] at h; simpa using h
  | none => rw [hf] at h; simp at h

theorem upsertStore_stores_keep_shipments (db : DB) (s : StoreInfo) (rows : List ShipmentRow) :
    storeIdOf { (upsertStore db s).1 with shipments := rows } s.storeName =
      storeIdOf (upsertStore db s).1 s.storeName := rfl

theorem saveStores_single (failShip : Nat → String → Date → String → Option String)
    (db : DB) (s : StoreInfo) :
    SaveStores noStoreFail failShip db [s] =
      .ok { (upsertStore db s).1 with
              shipments :=
                saveShipmentsLoop failShip (upsertStore db s).2 "產銷絲瓜" s.gourdShipments
                  (saveShipmentsLoop failShip (upsertStore db s).2 "秋葵" s.okraShipments
                    db.shipments) } := by
  show saveStoresLoop noStoreFail failShip [s] db = _
  simp only [saveStoresLoop, noStoreFail]
  rw [upsertStore_shipments]

theorem saveStoresLoop_all_ok (failShip : Nat → String → Date → String → Option String)
    (stores : List StoreInfo) (db : DB) :
    ∃ db', saveStoresLoop noStoreFail failShip stores db = .ok db' := by
  induction stores generalizing db with
  | nil => exact ⟨db, rfl⟩
  | cons s rest ih => exact ih _

theorem not_mem_needPlaceAPI (existing : List (String × ExistingStoreInfo))
    (storeMap : List (String × StoreData)) (n : String) (e : ExistingStoreInfo)
    (hfound : lookupStore existing n = some e) :
    ∀ d', (n, d') ∉ needPlaceAPI existing storeMap := by
  intro d' hd'
  have h := (List.mem_filter.1 hd').2
  simp only [hfound, Option.isNone_some] at h
  cases h

theorem not_mem_needPlaceAPI_names (existing : List (String × ExistingStoreInfo))
    (storeMap : List (String × StoreData)) (n : String) (e : ExistingStoreInfo)
    (hfound : lookupStore existing n = some e) :
    n ∉ (needPlaceAPI existing storeMap).map (fun p => p.1) := by
  intro hn
  obtain ⟨p, hp, hpn⟩ := List.mem_map.1 hn
  have : (n, p.2) ∈ needPlaceAPI existing storeMap := by
    have hpe : p = (n, p.2) := by
      cases p
      simp at hpn
      simp [hpn]
    exact hpe ▸ hp
  exact not_mem_needPlaceAPI existing storeMap n e hfound p.2 this

/-! ## Claim C1 -/

/-- Claim C1: in incremental (daily) reconciliation, every freshly-read
entity whose name is present in the Existing-Location Index receives
exactly the index's four stored geocode fields (place id, formatted
address, latitude, longitude) — all other fields unchanged — and that
entity is never part of the `needPlaceAPI` sub-map handed to the Geocode
Enricher. -/
theorem c1_index_hit_reuses_stored_fields
    (g : String → Except String PlaceSearchResponse)
    (existing : List (String × ExistingStoreInfo))
    (storeMap : List (String × StoreData)) (n : String) (d : StoreData)
    (e : ExistingStoreInfo)
    (hmem : (n, d) ∈ storeMap) (hfound : lookupStore existing n = some e) :
    ∃ o : EnrichOutcome,
      enrichMissingPlaceData g (.ok existing) storeMap = .ok o ∧
      (n, { d with placeID := e.placeID, formattedAddress := e.formattedAddress,
                   latitude := e.latitude, longitude := e.longitude }) ∈ o.merged ∧
      n ∉ o.routedNames ∧
      (∀ d', (n, d') ∉ needPlaceAPI existing storeMap) := by
  by_cases h : 0 < (needPlaceAPI existing storeMap).length
  · refine ⟨⟨storeMap.map (fun p =>
        match lookupStore existing p.1 with
        | some e => (p.1, copyExisting e p.2)
        | none => (p.1, enrichWorker g p.1 p.2)), true,
        (needPlaceAPI existing storeMap).map (fun p => p.1)⟩, ?_, ?_, ?_, ?_⟩
    · simp only [enrichMissingPlaceData, EnrichStoresWithPlaceData, if_pos h]
    · exact List.mem_map.2 ⟨(n, d), hmem, by simp only [hfound]; rfl⟩
    · exact not_mem_needPlaceAPI_names existing storeMap n e hfound
    · exact not_mem_needPlaceAPI existing storeMap n e hfound
  · refine ⟨⟨storeMap.map (fun p =>
        match lookupStore existing p.1 with
        | some e => (p.1, copyExisting e p.2)
        | none => p), false, []⟩, ?_, ?_, ?_, ?_⟩
    · simp only [enrichMissingPlaceData, EnrichStoresWithPlaceData, if_neg h]
    · exact List.mem_map.2 ⟨(n, d), hmem, by simp only [hfound]; rfl⟩
    · simp
    · exact not_mem_needPlaceAPI existing storeMap n e hfound

/-- Witness for C1 at a concrete input: one store `"A"` present in the
index. -/
theorem c1_witness :
    ∃ o : EnrichOutcome,
      enrichMissingPlaceData (fun _ => .error "offline")
        (.ok [("A", ⟨"pid", "addr", 7, 8⟩)])
        [("A", ⟨"A", "", "", 0, 0, [], []⟩)] = .ok o ∧
      ("A", ({ storeName := "A", placeID := "pid", formattedAddress := "addr",
               latitude := 7, longitude := 8, okraShipments := [],
               spongeGourdShipments := [] } : StoreData)) ∈ o.merged ∧
      "A" ∉ o.routedNames ∧
      (∀ d', ("A", d') ∉ needPlaceAPI [("A", ⟨"pid", "addr", 7, 8⟩)]
        [("A", ⟨"A", "", "", 0, 0, [], []⟩)]) :=
  c1_index_hit_reuses_stored_fields (fun _ => .error "offline")
    [("A", ⟨"pid", "addr", 7, 8⟩)] [("A", ⟨"A", "", "", 0, 0, [], []⟩)]
    "A" ⟨"A", "", "", 0, 0, [], []⟩ ⟨"pid", "addr", 7, 8⟩
    (by simp) (by rfl)

/-! ## Claim C2 -/

/-- Claim C2: in incremental mode the needs-lookup sub-map contains
exactly the freshly-read entries whose names the Existing-Location Index
does not know, and the Geocode Enricher is invoked (on exactly the names
of that sub-map) precisely when it is non-empty. -/
theorem c2_needs_lookup_partition
    (g : String → Except String PlaceSearchResponse)
    (existing : List (String × ExistingStoreInfo))
    (storeMap : List (String × StoreData)) :
    (∀ n d, (n, d) ∈ needPlaceAPI existing storeMap ↔
        ((n, d) ∈ storeMap ∧ lookupStore existing n = none)) ∧
    (∃ o : EnrichOutcome,
      enrichMissingPlaceData g (.ok existing) storeMap = .ok o ∧
      (o.enricherCalled = true ↔ needPlaceAPI existing storeMap ≠ []) ∧
      o.routedNames = (needPlaceAPI existing storeMap).map (fun p => p.1)) := by
  constructor
  · intro n d
    constructor
    · intro h
      have h' := List.mem_filter.1 h
      exact ⟨h'.1, Option.isNone_iff_eq_none.1 h'.2⟩
    · intro h
      exact List.mem_filter.2 ⟨h.1, by simp [h.2]⟩
  · by_cases h : 0 < (needPlaceAPI existing storeMap).length
    · refine ⟨⟨storeMap.map (fun p =>
          match lookupStore existing p.1 with
          | some e => (p.1, copyExisting e p.2)
          | none => (p.1, enrichWorker g p.1 p.2)), true,
          (needPlaceAPI existing storeMap).map (fun p => p.1)⟩, ?_, ?_, rfl⟩
      · simp only [enrichMissingPlaceData, EnrichStoresWithPlaceData, if_pos h]
      · simp only [true_iff]
        intro hnil
        rw [hnil] at h
        exact absurd h (by simp)
    · refine ⟨⟨storeMap.map (fun p =>
          match lookupStore existing p.1 with
          | some e => (p.1, copyExisting e p.2)
          | none => p), false, []⟩, ?_, ?_, ?_⟩
      · simp only [enrichMissingPlaceData, EnrichStoresWithPlaceData, if_neg h]
      · have hnil : needPlaceAPI existing storeMap = [] :=
          List.length_eq_zero.1 (by omega)
        simp [hnil]
      · have hnil : needPlaceAPI existing storeMap = [] :=
          List.length_eq_zero.1 (by omega)
        simp [hnil]

/-- Witness for C2 at a concrete input: store `"A"` known to the index,
store `"B"` unknown (so it must be routed). -/
theorem c2_witness :
    (("B", ({ storeName := "B", placeID := "", formattedAddress := "",
              latitude := 0, longitude := 0, okraShipments := [],
              spongeGourdShipments := [] } : StoreData)) ∈
        needPlaceAPI [("A", ⟨"pid", "addr", 7, 8⟩)]
          [("A", ⟨"A", "", "", 0, 0, [], []⟩), ("B", ⟨"B", "", "", 0, 0, [], []⟩)] ↔
      (("B", ({ storeName := "B", placeID := "", formattedAddress := "",
                latitude := 0, longitude := 0, okraShipments := [],
                spongeGourdShipments := [] } : StoreData)) ∈
          [("A", (⟨"A", "", "", 0, 0, [], []⟩ : StoreData)), ("B", ⟨"B", "", "", 0, 0, [], []⟩)] ∧
        lookupStore [("A", ⟨"pid", "addr", 7, 8⟩)] "B" = none)) :=
  (c2_needs_lookup_partition (fun _ => .error "offline")
    [("A", ⟨"pid", "addr", 7, 8⟩)]
    [("A", ⟨"A", "", "", 0, 0, [], []⟩), ("B", ⟨"B", "", "", 0, 0, [], []⟩)]).1
    "B" ⟨"B", "", "", 0, 0, [], []⟩

/-! ## Claim C3 -/

/-- Claim C3 (amended): if the Existing-Location Index lookup fails
during an incremental (daily) run, the run does not abort and the failure
is logged as a warning, but the run degrades to **no** enrichment at all:
no freshly-read entity is routed through the Geocode Enricher, and the
entities are persisted exactly as read. -/
theorem c3_index_failure_skips_enrichment
    (g : String → Except String PlaceSearchResponse)
    (fS : Nat → String → Date → String → Option String)
    (storeMap : List (String × StoreData)) (db : DB) (e : String) :
    ∃ db' r, SyncDataDaily g noStoreFail fS (.ok storeMap) (.error e) db = .ok (db', r) ∧
      r.enrichWarn = true ∧ r.routedNames = [] ∧
      r.stores = convertToStoreInfo storeMap := by
  obtain ⟨db', hdb⟩ := saveStoresLoop_all_ok fS (convertToStoreInfo storeMap) db
  refine ⟨db', ⟨convertToStoreInfo storeMap, true, []⟩, ?_, rfl, rfl, rfl⟩
  have hred : SyncDataDaily g noStoreFail fS (.ok storeMap) (.error e) db =
      match SaveStores noStoreFail fS db (convertToStoreInfo storeMap) with
      | .error er => .error er
      | .ok db2 => .ok (db2, ⟨convertToStoreInfo storeMap, true, []⟩) := rfl
  rw [hred, show SaveStores noStoreFail fS db (convertToStoreInfo storeMap) = .ok db' from hdb]

/-- Counterexample to C3 as stated: a one-entity run (`"A"`, freshly
read) whose index lookup fails, with a geocoder that *would* return a
candidate for `"A"`.  The run completes (`.ok`), but `routedNames = []` —
the freshly-read entity is **not** routed through the Geocode Enricher —
and its `placeID` stays empty, contradicting the claimed degradation to
full-mode enrichment. -/
theorem c3_counterexample :
    SyncDataDaily
        (fun q => if q = "全聯 A" then .ok ⟨[⟨"pid", "addr", 1, 2⟩]⟩ else .error "no")
        noStoreFail noShipFail
        (.ok [("A", ⟨"A", "", "", 0, 0, [], []⟩)]) (.error "connection refused")
        ⟨[], [], 1⟩ =
      .ok (⟨[⟨1, "A", "", "", some 0, some 0⟩], [], 2⟩,
           ⟨[⟨"A", "", "", 0, 0, [], []⟩], true, []⟩) := rfl

/-- Witness for the amended C3 at a concrete input. -/
theorem c3_witness :
    ∃ db' r, SyncDataDaily (fun _ => .error "offline") noStoreFail noShipFail
        (.ok [("B", ⟨"B", "", "", 0, 0, [], []⟩)]) (.error "timeout") ⟨[], [], 1⟩ =
          .ok (db', r) ∧
      r.enrichWarn = true ∧ r.routedNames = [] ∧
      r.stores = convertToStoreInfo [("B", ⟨"B", "", "", 0, 0, [], []⟩)] :=
  c3_index_failure_skips_enrichment (fun _ => .error "offline") noShipFail
    [("B", ⟨"B", "", "", 0, 0, [], []⟩)] ⟨[], [], 1⟩ "timeout"

/-! ## Claim C10 -/

/-- Claim C10: the Geocode Enricher always returns success: its error
component is `none` for every input map; a per-entity lookup failure is
absorbed inside the worker, leaving that entity untouched; hence the
full-mode caller's warning branch for an enricher error can never run. -/
theorem c10_enricher_never_fails
    (g : String → Except String PlaceSearchResponse)
    (storeMap : List (String × StoreData)) :
    (EnrichStoresWithPlaceData g storeMap).2 = none ∧
    (∀ n d e, g ("全聯 " ++ n) = .error e → enrichWorker g n d = d) ∧
    (∀ failStore fS sheetsRes db db' r,
        SyncData g failStore fS sheetsRes db = .ok (db', r) → r.enrichWarn = false) := by
  refine ⟨rfl, ?_, ?_⟩
  · intro n d e h
    simp [enrichWorker, h]
  · intro failStore fS sheetsRes db db' r h
    cases sheetsRes with
    | error e => exact absurd h (by simp [SyncData])
    | ok m =>
      have hred : SyncData g failStore fS (.ok m) db =
          match SaveStores failStore fS db
              (convertToStoreInfo (EnrichStoresWithPlaceData g m).1) with
          | .error er => .error er
          | .ok db2 =>
            .ok (db2, ⟨convertToStoreInfo (EnrichStoresWithPlaceData g m).1, false⟩) := rfl
      rw [hred] at h
      cases hsave : SaveStores failStore fS db
          (convertToStoreInfo (EnrichStoresWithPlaceData g m).1) with
      | error er => rw [hsave] at h; cases h
      | ok db2 =>
        rw [hsave] at h
        cases h
        rfl

/-- Witness for C10 at concrete inputs: a failing lookup leaves the store
untouched, and a concrete full-mode run reports no enricher warning. -/
theorem c10_witness :
    enrichWorker (fun _ => .error "boom") "A" ⟨"A", "", "", 0, 0, [], []⟩ =
      ⟨"A", "", "", 0, 0, [], []⟩ ∧
    FullSyncResult.enrichWarn ⟨[], false⟩ = false :=
  ⟨(c10_enricher_never_fails (fun _ => .error "boom") []).2.1 "A"
      ⟨"A", "", "", 0, 0, [], []⟩ "boom" rfl,
   (c10_enricher_never_fails (fun _ => .error "boom") []).2.2 noStoreFail noShipFail
      (.ok []) ⟨[], [], 1⟩ ⟨[], [], 1⟩ ⟨[], false⟩ rfl⟩

/-! ## Claim C7 -/

/-- Claim C7: for every database state and query window, no row of the
recent-shipments read projection has an empty or literal-zero quantity. -/
theorem c7_quantity_never_empty_or_zero (db : DB) (currentDate : Date) (days : Nat)
    (r : RecentRow) (hmem : r ∈ GetRecentShipments db currentDate days) :
    r.quantity ≠ "" ∧ r.quantity ≠ "0" := by
  simp only [GetRecentShipments, List.mem_filterMap] at hmem
  obtain ⟨p, hp, heq⟩ := hmem
  by_cases hq : p.2.quantity = "" ∨ p.2.quantity = "0"
  · simp [hq] at heq
  · simp only [if_neg hq] at heq
    cases heq
    push_neg at hq
    exact hq

/-- Witness for C7 at a concrete input: one store with one recent
in-window shipment of quantity `"5"`. -/
theorem c7_witness :
    (⟨"S", "addr", 10, 20, "秋葵", "2024-03-05", "5"⟩ : RecentRow).quantity ≠ "" ∧
    (⟨"S", "addr", 10, 20, "秋葵", "2024-03-05", "5"⟩ : RecentRow).quantity ≠ "0" :=
  c7_quantity_never_empty_or_zero
    ⟨[⟨1, "S", "p", "addr", some 10, some 20⟩], [⟨1, "秋葵", ⟨2024, 3, 5⟩, "5"⟩], 2⟩
    ⟨2024, 3, 5⟩ 5 ⟨"S", "addr", 10, 20, "秋葵", "2024-03-05", "5"⟩ (by decide)

/-! ## Claim C9 -/

theorem loadSheetsLoop_step_error
    (httpCsv : String → String → Except String (List (List String)))
    (sheetID gid name : String) (rest : List (String × String))
    (m : List (String × StoreData)) (e : String)
    (h : httpCsv sheetID (trimString gid) = .error e) :
    loadSheetsLoop httpCsv sheetID ((gid, name) :: rest) m =
      loadSheetsLoop httpCsv sheetID rest m := by
  simp only [loadSheetsLoop, LoadSheetByGID, h]

/-- Claim C9: `LoadAndOrganizeSheets` fails with its configuration error
exactly when the source identifier or one of the sub-sheet/category
environment lists is missing (empty) or the comma-split lists mismatch in
length; and when one individual sub-sheet cannot be retrieved or parsed
(the CSV oracle returns an error) that sheet is skipped and only its
category's data is omitted: the run produces exactly the store map it
would produce without that (gid, name) pair, the remaining sub-sheets
still being processed into it. -/
theorem c9_reader_error_semantics
    (httpCsv : String → String → Except String (List (List String))) (env : SheetEnv) :
    ((∃ err, LoadAndOrganizeSheets httpCsv env = .error err) ↔
      (env.sheetID = "" ∨ env.gidsEnv = "" ∨ env.namesEnv = "" ∨
       (env.gidsEnv.splitOn ",").length ≠ (env.namesEnv.splitOn ",").length)) ∧
    (∀ sheetID pre gid name post e m,
      httpCsv sheetID (trimString gid) = .error e →
      loadSheetsLoop httpCsv sheetID (pre ++ (gid, name) :: post) m =
        loadSheetsLoop httpCsv sheetID (pre ++ post) m) := by
  constructor
  · constructor
    · intro ⟨err, herr⟩
      by_cases h1 : env.sheetID = "" ∨ env.gidsEnv = "" ∨ env.namesEnv = ""
      · rcases h1 with h | h | h
        · exact Or.inl h
        · exact Or.inr (Or.inl h)
        · exact Or.inr (Or.inr (Or.inl h))
      · by_cases h2 : (env.gidsEnv.splitOn ",").length ≠ (env.namesEnv.splitOn ",").length
        · exact Or.inr (Or.inr (Or.inr h2))
        · exfalso
          simp only [LoadAndOrganizeSheets, if_neg h1, if_neg h2] at herr
          cases herr
    · intro hbad
      by_cases h1 : env.sheetID = "" ∨ env.gidsEnv = "" ∨ env.namesEnv = ""
      · exact ⟨"GOOGLE_SHEET_ID or GOOGLE_SHEET_GIDS or GOOGLE_SHEET_NAMES not set",
          by simp only [LoadAndOrganizeSheets, if_pos h1]⟩
      · have h2 : (env.gidsEnv.splitOn ",").length ≠ (env.namesEnv.splitOn ",").length := by
          rcases hbad with h | h | h | h
          · exact absurd (Or.inl h) h1
          · exact absurd (Or.inr (Or.inl h)) h1
          · exact absurd (Or.inr (Or.inr h)) h1
          · exact h
        exact ⟨"GIDs count and Names count do not match",
          by simp only [LoadAndOrganizeSheets, if_neg h1, if_pos h2]⟩
  · intro sheetID pre gid name post e m h
    induction pre generalizing m with
    | nil =>
      simpa using loadSheetsLoop_step_error httpCsv sheetID gid name post m e h
    | cons p rest ih =>
      obtain ⟨g, nm⟩ := p
      simp only [List.cons_append, loadSheetsLoop]
      cases LoadSheetByGID httpCsv sheetID (trimString g) with
      | error e' => exact ih _
      | ok records => exact ih _

/-- Witness for C9 at concrete inputs: a CSV oracle that fails on gid
`"bad"` only; that pair's category is omitted while the surrounding
sub-sheets are still processed into the shared store map. -/
theorem c9_witness :
    loadSheetsLoop
        (fun _ g => if g = "bad" then .error "fetch failed"
          else .ok [["store", "2024/03/05"], ["A", "5"]])
        "sheet1" ([("1", "秋葵")] ++ ("bad", "產銷絲瓜") :: [("2", "other")]) [] =
      loadSheetsLoop
        (fun _ g => if g = "bad" then .error "fetch failed"
          else .ok [["store", "2024/03/05"], ["A", "5"]])
        "sheet1" ([("1", "秋葵")] ++ [("2", "other")]) [] :=
  (c9_reader_error_semantics
      (fun _ g => if g = "bad" then .error "fetch failed"
        else .ok [["store", "2024/03/05"], ["A", "5"]])
      ⟨"sheet1", "1,bad,2", "秋葵,產銷絲瓜,other"⟩).2
    "sheet1" [("1", "秋葵")] "bad" "產銷絲瓜" [("2", "other")] "fetch failed" []
    (by rw [if_pos (show trimString "bad" = "bad" from by decide)])

/-! ## Claim C8 -/

theorem enrichPool_invariant (cap n : Nat) (s : EnrichPoolState)
    (h : EnrichReachable cap n s) :
    s.pending + s.active + s.done = n ∧ s.active ≤ cap ∧
      (s.returned = true → s.pending = 0 ∧ s.active = 0) := by
  induction h with
  | init => exact ⟨by simp [enrichInit], by simp [enrichInit], by simp [enrichInit]⟩
  | step hr hstep ih =>
    obtain ⟨hsum, hcap, hret⟩ := ih
    cases hstep with
    | acquire hp ha =>
      refine ⟨by simp; omega, by simp; omega, ?_⟩
      intro h
      simp at h
      obtain ⟨h0, _⟩ := hret h
      omega
    | release ha =>
      refine ⟨by simp; omega, by simp; omega, ?_⟩
      intro h
      simp at h
      obtain ⟨_, h0⟩ := hret h
      omega
    | ret hp ha => exact ⟨by simp; omega, by simp, by simp⟩

/-- Claim C8: in the bounded worker pool of `EnrichStoresWithPlaceData`
(one goroutine per entity, gated by the capacity-10 semaphore channel,
joined by `wg.Wait()`), every reachable state has at most 10 lookups in
flight — for any number of entities, in particular 25 — and once the call
has returned, every dispatched lookup has completed (`done = n`). -/
theorem c8_concurrency_bound_and_join (n : Nat) (s : EnrichPoolState)
    (h : EnrichReachable 10 n s) :
    s.active ≤ 10 ∧ (s.returned = true → s.done = n) := by
  obtain ⟨hsum, hcap, hret⟩ := enrichPool_invariant 10 n s h
  refine ⟨hcap, fun hr => ?_⟩
  obtain ⟨h0, h1⟩ := hret hr
  omega

/-- Witness for C8 with 25 entities: the state reached after one worker
acquires a semaphore slot. -/
theorem c8_witness :
    (⟨24, 1, 0, false⟩ : EnrichPoolState).active ≤ 10 ∧
      ((⟨24, 1, 0, false⟩ : EnrichPoolState).returned = true →
        (⟨24, 1, 0, false⟩ : EnrichPoolState).done = 25) :=
  c8_concurrency_bound_and_join 25 ⟨24, 1, 0, false⟩
    (EnrichReachable.step EnrichReachable.init
      (EnrichPoolStep.acquire (enrichInit 25) (by decide) (by decide)))

/-! ## Claim C6 -/

/-- Claim C6: the four accepted input forms all parse (via the ordered
layout list) to the calendar date 2024-03-05, and a record whose date
matches none of the layouts is skipped — the shipment loop produces
exactly the state it would produce without that record — while the upsert
batch still commits. -/
theorem c6_date_parsing
    : (parseShipmentDate "2024/03/05" = some ⟨2024, 3, 5⟩ ∧
       parseShipmentDate "2024-03-05" = some ⟨2024, 3, 5⟩ ∧
       parseShipmentDate "03/05/2024" = some ⟨2024, 3, 5⟩ ∧
       parseShipmentDate "2024/3/5" = some ⟨2024, 3, 5⟩) ∧
      (∀ fS storeID productType pre post sh rows,
        parseShipmentDate sh.date = none →
        saveShipmentsLoop fS storeID productType (pre ++ sh :: post) rows =
          saveShipmentsLoop fS storeID productType (pre ++ post) rows) ∧
      (∀ fS db stores, ∃ db', SaveStores noStoreFail fS db stores = .ok db') := by
  refine ⟨⟨by decide, by decide, by decide, by decide⟩, ?_, ?_⟩
  · intro fS storeID productType pre post sh rows hp
    rw [saveShipmentsLoop_append, saveShipmentsLoop_append, saveShipmentsLoop_step,
      saveShipment_parse_fail fS _ storeID productType sh hp]
  · intro fS db stores
    exact saveStoresLoop_all_ok fS stores db

/-- Witness for C6 at a concrete input: the unparseable record
`"not-a-date"` is skipped by the shipment loop. -/
theorem c6_witness :
    saveShipmentsLoop noShipFail 3 "秋葵" ([] ++ ⟨"not-a-date", "5"⟩ :: [⟨"2024/03/05", "7"⟩]) [] =
      saveShipmentsLoop noShipFail 3 "秋葵" ([] ++ [⟨"2024/03/05", "7"⟩]) [] :=
  c6_date_parsing.2.1 noShipFail 3 "秋葵" [] [⟨"2024/03/05", "7"⟩] ⟨"not-a-date", "5"⟩ []
    (by decide)

/-! ## Claim C4 -/

/-- Claim C4 (amended): the batch runs in a single transaction whose
error result means rollback (no partial state escapes).  An entity-row
database error anywhere in the batch aborts the whole transaction and is
surfaced as the sync error; when no entity-row write fails the batch
always commits — shipment-row database errors, exactly like per-shipment
date-parse failures, are logged and that row skipped without failing or
rolling back the batch. -/
theorem c4_transaction_boundaries (failStore : String → Option String)
    (fS : Nat → String → Date → String → Option String)
    (db : DB) (stores : List StoreInfo) :
    ((∃ s, s ∈ stores ∧ failStore s.storeName ≠ none) →
      ∃ e, SaveStores failStore fS db stores = .error e) ∧
    ((∀ s ∈ stores, failStore s.storeName = none) →
      ∃ db', SaveStores failStore fS db stores = .ok db') := by
  constructor
  · intro ⟨s, hs, hfail⟩
    induction stores generalizing db with
    | nil => cases hs
    | cons t rest ih =>
      show ∃ e, saveStoresLoop failStore fS (t :: rest) db = .error e
      cases hft : failStore t.storeName with
      | some e =>
        exact ⟨"儲存店家 " ++ t.storeName ++ " 失敗: " ++ e,
          by simp only [saveStoresLoop, hft]⟩
      | none =>
        rcases List.mem_cons.1 hs with rfl | hrest
        · exact absurd hft hfail
        · simp only [saveStoresLoop, hft]
          exact ih _ hrest
  · intro hok
    induction stores generalizing db with
    | nil => exact ⟨db, rfl⟩
    | cons t rest ih =>
      have hft : failStore t.storeName = none := hok t (List.mem_cons_self t rest)
      show ∃ db', saveStoresLoop failStore fS (t :: rest) db = .ok db'
      simp only [saveStoresLoop, hft]
      exact ih _ (fun s hs => hok s (List.mem_cons_of_mem t hs))

/-- Counterexample to C4 as stated: a batch whose single shipment-row
write fails with a database error still commits (`.ok`), with the failed
row silently dropped — `SaveStores` only logs shipment-row errors, it
never aborts on them, contradicting "any row-level database error (on an
entity row or a shipment row) aborts the entire transaction". -/
theorem c4_counterexample :
    SaveStores noStoreFail (fun _ _ _ _ => some "unique constraint violation")
        ⟨[], [], 1⟩ [⟨"S", "", "", 0, 0, [⟨"2024/03/05", "5"⟩], []⟩] =
      .ok ⟨[⟨1, "S", "", "", some 0, some 0⟩], [], 2⟩ := rfl

/-- Witness for the amended C4: a failing entity row aborts the batch,
and with no entity-row failures the batch commits. -/
theorem c4_witness :
    (∃ e, SaveStores (fun n => if n = "S" then some "disk full" else none) noShipFail
        ⟨[], [], 1⟩ [⟨"S", "", "", 0, 0, [], []⟩] = .error e) ∧
    (∃ db', SaveStores noStoreFail noShipFail
        ⟨[], [], 1⟩ [⟨"S", "", "", 0, 0, [], []⟩] = .ok db') :=
  ⟨(c4_transaction_boundaries (fun n => if n = "S" then some "disk full" else none)
      noShipFail ⟨[], [], 1⟩ [⟨"S", "", "", 0, 0, [], []⟩]).1
      ⟨⟨"S", "", "", 0, 0, [], []⟩, by decide, by decide⟩,
   (c4_transaction_boundaries noStoreFail noShipFail
      ⟨[], [], 1⟩ [⟨"S", "", "", 0, 0, [], []⟩]).2
      (fun s hs => by
        have : s = ⟨"S", "", "", 0, 0, [], []⟩ := by simpa using hs
        simp [this, noStoreFail])⟩

/-! ## Claim C5 -/

/-- Claim C5: Persistence Upsert is idempotent.  Running `SaveStores`
twice with the same entity and shipment data (no injected database
failures) leaves exactly one persisted row per (entity, category, date)
natural key — the singleton `keyFilter` — whose quantity is the value of
the most recent upsert for that key (`sh` being the last record of its
category that parses to date `d`). -/
theorem c5_upsert_idempotent
    (db0 db1 db2 : DB) (s : StoreInfo) (ptype : String)
    (pre post : List ShipmentInfo) (sh : ShipmentInfo) (d : Date)
    (hu0 : UniqueKeys db0.shipments)
    (hcat : (ptype = "秋葵" ∧ s.okraShipments = pre ++ sh :: post) ∨
            (ptype = "產銷絲瓜" ∧ s.gourdShipments = pre ++ sh :: post))
    (hd : parseShipmentDate sh.date = some d)
    (hpost : ∀ sh' ∈ post, parseShipmentDate sh'.date ≠ some d)
    (h1 : SaveStores noStoreFail noShipFail db0 [s] = .ok db1)
    (h2 : SaveStores noStoreFail noShipFail db1 [s] = .ok db2) :
    ∃ sid, storeIdOf db2 s.storeName = some sid ∧
      keyFilter (sid, ptype, d) db2.shipments = [⟨sid, ptype, d, sh.qty⟩] := by
  rw [saveStores_single] at h1 h2
  injection h1 with hdb1
  injection h2 with hdb2
  have hdb1' := hdb1.symm
  have hdb2' := hdb2.symm
  have hu1 : UniqueKeys db1.shipments := by
    rw [hdb1']
    exact saveShipmentsLoop_unique _ _ _ _ _
      (saveShipmentsLoop_unique _ _ _ _ _ hu0)
  have hid1 : storeIdOf db1 s.storeName = some (upsertStore db0 s).2 := by
    rw [hdb1']
    exact upsertStore_idOf db0 s
  have hB2 : (upsertStore db1 s).2 = (upsertStore db0 s).2 :=
    upsertStore_id_found db1 s (upsertStore db0 s).2 hid1
  have hid2 : storeIdOf db2 s.storeName = some (upsertStore db0 s).2 := by
    rw [hdb2', ← hB2]
    exact upsertStore_idOf db1 s
  refine ⟨(upsertStore db0 s).2, hid2, ?_⟩
  rw [hdb2', hB2]
  rcases hcat with ⟨hpt, hdecomp⟩ | ⟨hpt, hdecomp⟩
  · subst hpt
    rw [hdecomp]
    rw [saveShipmentsLoop_keyFilter_untouched noShipFail (upsertStore db0 s).2
      "產銷絲瓜" s.gourdShipments _ _ ?hgourd]
    case hgourd =>
      intro sh' hsh' heq
      cases hp : parseShipmentDate sh'.date with
      | none => simp [shipKeyOf, hp] at heq
      | some d' =>
        simp only [shipKeyOf, hp, Option.map_some', Option.some.injEq] at heq
        have hbad : "產銷絲瓜" = "秋葵" := congrArg (fun p => p.2.1) heq
        exact absurd hbad (by decide)
    exact saveShipmentsLoop_keyFilter_target noShipFail (fun _ _ _ _ => rfl)
      (upsertStore db0 s).2 "秋葵" pre post sh d db1.shipments hd hpost hu1
  · subst hpt
    rw [hdecomp]
    exact saveShipmentsLoop_keyFilter_target noShipFail (fun _ _ _ _ => rfl)
      (upsertStore db0 s).2 "產銷絲瓜" pre post sh d _ hd hpost
      (saveShipmentsLoop_unique _ _ _ _ _ hu1)

/-- Witness for C5 at a concrete input: saving the same one-shipment
store twice from an empty database. -/
theorem c5_witness :
    ∃ sid, storeIdOf ⟨[⟨1, "W", "p", "a", some 3, some 4⟩],
        [⟨1, "秋葵", ⟨2024, 3, 5⟩, "7"⟩], 2⟩ "W" = some sid ∧
      keyFilter (sid, "秋葵", ⟨2024, 3, 5⟩)
          [⟨1, "秋葵", ⟨2024, 3, 5⟩, "7"⟩] = [⟨sid, "秋葵", ⟨2024, 3, 5⟩, "7"⟩] :=
  c5_upsert_idempotent ⟨[], [], 1⟩
    ⟨[⟨1, "W", "p", "a", some 3, some 4⟩], [⟨1, "秋葵", ⟨2024, 3, 5⟩, "7"⟩], 2⟩
    ⟨[⟨1, "W", "p", "a", some 3, some 4⟩], [⟨1, "秋葵", ⟨2024, 3, 5⟩, "7"⟩], 2⟩
    ⟨"W", "p", "a", 3, 4, [⟨"2024/03/05", "7"⟩], []⟩ "秋葵"
    [] [] ⟨"2024/03/05", "7"⟩ ⟨2024, 3, 5⟩
    (by decide) (Or.inl ⟨rfl, rfl⟩) (by decide) (by simp) rfl rfl

end PXMark
